import Mathlib

/-!
# Verification of the HTML → semantic-block JSON extractor

A shallow embedding in Lean 4 of the extraction pipeline implemented in
`html_to_semantic_json.py` (class `HTMLToSemanticJSON`), together with
theorems settling the specification claims about it.

The embedding works at the level of the parsed element tree (the lenient
HTML parser, BeautifulSoup/lxml, is the library boundary): an HTML document
is a `HNode` tree, output blocks are `Block` values, and each Python method
relevant to a claim is translated into a Lean function over those types.
Node *identity* (Python object identity, used by `consumed_panel_nodes` and
the pseudo-tabset grouping) is modelled by tree paths (`HPath`, a list of
child indices).  Regular-expression tests from the source are translated
into explicit decidable string scans, each annotated with the regex it
implements.
-/

namespace HtmlSJ

/-- Python-style whitespace for `str.strip()` / `\s` (ASCII fragment). -/
def isPySpace (c : Char) : Bool :=
  c = ' ' || c = '\t' || c = '\n' || c = '\r' || c = '\x0b' || c = '\x0c'

/-- Model of Python `str.strip()` (ASCII whitespace fragment). -/
def pyStrip (s : String) : String :=
  (s.toList.dropWhile isPySpace).reverse.dropWhile isPySpace |>.reverse |> String.mk

/-- Model of Python `str.lower()` (ASCII fragment). -/
def pyLower (s : String) : String :=
  String.mk (s.toList.map Char.toLower)

/-- Substring search scan: does `needle` occur in `hay` (as char lists)? -/
def listContainsAux (needle : List Char) : List Char → Bool
  | [] => needle.isEmpty
  | c :: rest => needle.isPrefixOf (c :: rest) || listContainsAux needle rest

/-- Model of Python `needle in haystack` substring containment. -/
def strContains (haystack needle : String) : Bool :=
  listContainsAux needle.toList haystack.toList

/-- Model of Python `s.startswith(p)`. -/
def strStartsWith (s p : String) : Bool := p.toList.isPrefixOf s.toList

/-- Model of Python `s.endswith(p)`. -/
def strEndsWith (s p : String) : Bool := p.toList.isSuffixOf s.toList

/-- Model of `re.sub(r'\s+', ' ', text)`: collapse whitespace runs to a
single space. -/
def collapseWs (s : String) : String :=
  String.mk (go false s.toList)
where
  /-- `afterSpace` records whether the previous character was whitespace
  (so the current whitespace run has already emitted its space). -/
  go (afterSpace : Bool) : List Char → List Char
    | [] => []
    | c :: cs =>
      if isPySpace c then
        if afterSpace then go true cs else ' ' :: go true cs
      else
        c :: go false cs

/-- `re.search(r'[.!?]', s)`: some sentence punctuation occurs anywhere. -/
def hasSentencePunct (s : String) : Bool :=
  s.toList.any fun c => c = '.' || c = '!' || c = '?'

/-- `re.search(r'[a-zA-Z]', s)`: some ASCII letter occurs. -/
def hasAsciiLetter (s : String) : Bool :=
  s.toList.any fun c => ('a' ≤ c && c ≤ 'z') || ('A' ≤ c && c ≤ 'Z')

/-- `re.search(r'\d', s)`: some decimal digit occurs. -/
def hasDigit (s : String) : Bool :=
  s.toList.any Char.isDigit

/-- `re.search(r'[.!?].+', s)`: punctuation followed by at least one more
character (`.` does not match a newline), i.e. punctuation that is not at
the very end. -/
def hasInternalPunct (s : String) : Bool :=
  go s.toList
where
  go : List Char → Bool
    | [] => false
    | [_] => false
    | c :: d :: rest =>
      ((c = '.' || c = '!' || c = '?') && d ≠ '\n') || go (d :: rest)

/-! ## Element-tree data model

`HNode` models the parsed HTML tree exposed by the parser adapter
(BeautifulSoup `Tag` / `NavigableString`).  Attributes are an association
list (first binding wins, as the lenient parser keeps the first occurrence
of a duplicated attribute).  Node identity (Python `id()` / `in` on sets of
tags) is modelled by tree paths: lists of child indices. -/

inductive HNode where
  | elem (name : String) (attrs : List (String × String)) (children : List HNode)
  | text (s : String)

abbrev HPath := List Nat

def HNode.childrenD : HNode → List HNode
  | .elem _ _ cs => cs
  | .text _ => []

def HNode.isElem : HNode → Bool
  | .elem _ _ _ => true
  | .text _ => false

def HNode.nameD : HNode → String
  | .elem n _ _ => n
  | .text _ => ""

/-- `elem.get(key)` on a tag's attribute dict. -/
def HNode.getAttr : HNode → String → Option String
  | .elem _ attrs _, key => (attrs.find? (fun kv => kv.1 = key)).map Prod.snd
  | .text _, _ => none

/-- `elem.get(key, default)`. -/
def HNode.getAttrD (n : HNode) (key dflt : String) : String :=
  (n.getAttr key).getD dflt

/-- Maximal runs of non-separator characters (`split` + drop empties). -/
def wordsByAux (p : Char → Bool) (cur : List Char) : List Char → List String
  | [] => if cur.isEmpty then [] else [String.mk cur.reverse]
  | c :: rest =>
    if p c then
      if cur.isEmpty then wordsByAux p [] rest
      else String.mk cur.reverse :: wordsByAux p [] rest
    else wordsByAux p (c :: cur) rest

/-- bs4 multi-valued `class` attribute: the raw string split on
whitespace. -/
def HNode.classTokens (n : HNode) : List String :=
  wordsByAux isPySpace [] (n.getAttrD "class" "").toList

/-- `' '.join(str(c) for c in elem.get('class', [])).lower()`. -/
def HNode.classStr (n : HNode) : String :=
  pyLower (String.intercalate " " n.classTokens)

mutual

/-- The text pieces (NavigableStrings) of a subtree in document order. -/
def HNode.textPieces : HNode → List String
  | .text s => [s]
  | .elem _ _ cs => textPiecesList cs

def textPiecesList : List HNode → List String
  | [] => []
  | c :: cs => c.textPieces ++ textPiecesList cs

end

/-- bs4 `get_text(separator=sep, strip=True)`: each text piece stripped,
empties dropped, joined with `sep`. -/
def HNode.getTextStrip (n : HNode) (sep : String) : String :=
  String.intercalate sep (((n.textPieces).map pyStrip).filter (fun s => ¬ s.isEmpty))

mutual

/-- Paths of every node of the subtree (root `[]` included), preorder,
i.e. document order. -/
def subtreePaths : HNode → List HPath
  | .text _ => [[]]
  | .elem _ _ cs => [] :: subtreePathsList 0 cs

def subtreePathsList : Nat → List HNode → List HPath
  | _, [] => []
  | i, c :: cs =>
    (subtreePaths c).map (fun p => i :: p) ++ subtreePathsList (i + 1) cs

end

/-- Node at a path (child indices count text nodes too). -/
def nodeAt? : HNode → HPath → Option HNode
  | n, [] => some n
  | n, i :: p =>
    match n.childrenD.get? i with
    | some c => nodeAt? c p
    | none => none

/-- Paths of the strict descendants of the root, document order: what
`find_all` / `.descendants` iterate over. -/
def descPaths (root : HNode) : List HPath :=
  (subtreePaths root).filter (fun p => ¬ p.isEmpty)

/-- Proper prefixes of a path, immediate parent first (the order of
`elem.parents`). -/
def ancestorPaths (p : HPath) : List HPath :=
  ((List.range p.length).reverse).map (fun k => p.take k)

/-- The ancestor nodes of the node at `p`, immediate parent first
(`elem.parents`, cut off at the given root). -/
def ancestorsOf (root : HNode) (p : HPath) : List HNode :=
  (ancestorPaths p).filterMap (nodeAt? root)

/-- Element descendants (as nodes, document order) of a node:
`elem.find_all(True)` / filtering `.descendants` to tags. -/
def elemDescendants (n : HNode) : List HNode :=
  (descPaths n).filterMap (nodeAt? n) |>.filter HNode.isElem

/-! ## Configuration (§6) -/

structure Config where
  eyebrowMode : String := "annotate"
  dropBlogFeedsOnNonBlogPages : Bool := true
  strictSeoMode : Bool := false
  dropBreakpointHidden : Bool := false

def defaultConfig : Config := {}

/-! ## Visibility predicate (`_is_visually_hidden`, lines 279–384) -/

/-- `HIDDEN_CLASS_PATTERNS` (including the duplicated `sr-only-text`). -/
def hiddenClassPatterns : List String :=
  ["sr-only", "screen-reader-text", "visually-hidden", "hidden",
   "elementor-screen-only", "visuallyhidden", "sr-only-text",
   "a11y-hidden", "skip-link", "screen-reader", "sr-only-text"]

/-- Tags whose presence as a descendant makes an `aria-hidden` subtree
"content" (`target.find(['h1',...,'table'])`). -/
def contentTagNames : List String :=
  ["h1", "h2", "h3", "h4", "h5", "h6", "p", "li", "table"]

/-- The inner `_is_non_content_aria_hidden` helper. -/
def isNonContentAriaHidden (t : HNode) : Bool :=
  if ¬ t.isElem then false
  else if t.getAttr "aria-hidden" ≠ some "true" then false
  else
    let hasContentTags := (elemDescendants t).any fun d => contentTagNames.contains d.nameD
    let textLen := (t.getTextStrip "").length
    ¬ hasContentTags && textLen < 10

/-- Inline-style hidden check of `_is_visually_hidden`. -/
def styleHidden (n : HNode) : Bool :=
  let style := n.getAttrD "style" ""
  if style.isEmpty then false
  else
    let sl := pyLower style
    strContains sl "display:none" || strContains sl "display: none" ||
    strContains sl "visibility:hidden" || strContains sl "visibility: hidden"

/-- The Elementor breakpoint-class test applied to a (lowered) class
string. -/
def hasBreakpointClass (classStr : String) : Bool :=
  strContains classStr "elementor-hidden-mobile" ||
  strContains classStr "elementor-hidden-tablet" ||
  strContains classStr "elementor-hidden-desktop" ||
  strContains classStr "elementor-hidden-"

/-- Some `HIDDEN_CLASS_PATTERNS` entry occurs in the class string. -/
def hasHiddenClassPattern (classStr : String) : Bool :=
  hiddenClassPatterns.any fun pat => strContains classStr (pyLower pat)

/-- The parents loop of `_is_visually_hidden` taken when the element has a
breakpoint class and `drop_breakpoint_hidden` is off: only ancestor
`aria-hidden` counts. -/
def hiddenParentsAriaLoop (parents : List HNode) : Bool :=
  parents.any fun p => p.isElem && isNonContentAriaHidden p

/-- The general parents loop of `_is_visually_hidden` (lines 352–382). -/
def hiddenParentsLoop (cfg : Config) : List HNode → Bool
  | [] => false
  | p :: rest =>
    if ¬ p.isElem then hiddenParentsLoop cfg rest
    else
      let pcs := p.classStr
      if hasBreakpointClass pcs then
        if ¬ cfg.dropBreakpointHidden then
          if isNonContentAriaHidden p then true else hiddenParentsLoop cfg rest
        else true
      else if hasHiddenClassPattern pcs then true
      else if isNonContentAriaHidden p then true
      else hiddenParentsLoop cfg rest

/-- `_is_visually_hidden(elem)`; `parents` is the `elem.parents` chain,
immediate parent first. -/
def isVisuallyHidden (cfg : Config) (parents : List HNode) (n : HNode) : Bool :=
  if ¬ n.isElem then false
  else if isNonContentAriaHidden n then true
  else if styleHidden n then true
  else
    let cs := n.classStr
    if hasBreakpointClass cs then
      if cfg.dropBreakpointHidden then true
      else hiddenParentsAriaLoop parents
    else if hasHiddenClassPattern cs then true
    else hiddenParentsLoop cfg parents

/-- `_get_visible_text_simple`: empty for hidden elements, else
`get_text(separator=' ', strip=True)`. -/
def getVisibleTextSimple (cfg : Config) (parents : List HNode) (n : HNode) : String :=
  if ¬ n.isElem then ""
  else if isVisuallyHidden cfg parents n then ""
  else n.getTextStrip " "

/-! ## Block data model

The output sequence is a list of tagged block variants (§3 of the spec;
the Python code builds them as dicts).  The only `meta` key the program
ever writes is `{"role": ...}`, modelled as an optional role string. -/

mutual

inductive Block where
  | heading (level : Int) (text : String) (meta : Option String)
  | paragraph (text : String) (meta : Option String)
  | list (ordered : Bool) (items : List String)
  | table (rows : List (List String))
  | cta (text : String) (href : Option String) (meta : Option String)
  | accordion (title : String) (contentBlocks : List Block)
  | faq (question : String) (answerBlocks : List Block)
  | tabset (tabs : List TabEntry)

inductive TabEntry where
  | mk (title : String) (contentBlocks : List Block)

end

def TabEntry.title : TabEntry → String
  | .mk t _ => t

def TabEntry.contentBlocks : TabEntry → List Block
  | .mk _ c => c

/-- `b.get('type') == 'heading' and b.get('level') == 1`. -/
def Block.isH1 : Block → Bool
  | .heading 1 _ _ => true
  | _ => false

/-- The `validation` object: `{status, h1_count, messages}`. -/
structure Validation where
  status : String
  h1Count : Int
  messages : List String
  deriving DecidableEq, Repr

/-! ## H1 validation (`_extract_blocks`, lines 151–190)

After all post-processing passes, `_extract_blocks` counts top-level
`heading`/`level=1` blocks, and if there are several keeps only the first,
recording a warning. -/

/-- Number of top-level H1 blocks (the `sum(1 for b in blocks if ...)`). -/
def countH1 (blocks : List Block) : Nat :=
  (blocks.filter Block.isH1).length

/-- The `h1_seen` filtering loop: keep every block except level-1 headings
after the first one. -/
def keepFirstH1 (blocks : List Block) : List Block :=
  go false blocks
where
  go (h1Seen : Bool) : List Block → List Block
    | [] => []
    | b :: rest =>
      if b.isH1 then
        if h1Seen then go true rest else b :: go true rest
      else
        b :: go h1Seen rest

/-- The H1-count validation step of `_extract_blocks` (lines 151–190):
returns the final block list and the `validation` dict. -/
def validateH1 (blocks : List Block) : List Block × Validation :=
  let h1Count := countH1 blocks
  if h1Count = 0 then
    (blocks, ⟨"warn", 0, ["No H1 found in extracted blocks."]⟩)
  else if h1Count > 1 then
    let filtered := keepFirstH1 blocks
    let newCount := countH1 filtered
    (filtered,
      ⟨"warn", newCount,
        ["Multiple H1 headings found (" ++ toString h1Count ++ "). Kept the first."]⟩)
  else
    (blocks, ⟨"pass", h1Count, []⟩)

/-! ## CTA extraction (`_extract_cta`, lines 1554–1584)

`_extract_cta` is the only producer of `cta` blocks in the program.  The
call `urljoin(base_url, href)` into the standard URL library is modelled by
an abstract `resolve` function; `canonicalHref` is the `href` of the
`<link rel="canonical">` found in the original soup (`none` when absent,
and an empty string is falsy in the source's guard). -/

def extractCta (cfg : Config) (resolve : String → String → String)
    (canonicalHref : Option String) (parents : List HNode) (n : HNode) :
    Option Block :=
  let text := pyStrip (getVisibleTextSimple cfg parents n)
  if text.isEmpty then none
  else if n.nameD = "a" then
    match n.getAttr "href" with
    | some h =>
      if h.isEmpty then some (.cta text none none)
      else if strStartsWith h "javascript:" || h = "#" then none
      else if strStartsWith h "#" then some (.cta text (some h) (some "router"))
      else
        let resolved :=
          if strStartsWith h "/" || ¬ strStartsWith h "http" then
            match canonicalHref with
            | some base => if ¬ base.isEmpty then resolve base h else h
            | none => h
          else h
        some (.cta text (some resolved) none)
    | none => some (.cta text none none)
  else some (.cta text none none)

/-! ## Paragraph creation (`_create_paragraph`, lines 1363–1403) -/

/-- `re.match(r'^trusted.*in.*area$', t)`: `trusted` at the start, `area`
at the end, and an occurrence of `in` strictly between them.  (`.` does
not match newlines, but these checks run after the `\s+` → `' '` collapse,
so the text has none.) -/
def trustedAreaPattern (t : String) : Bool :=
  strStartsWith t "trusted" && strEndsWith t "area" && 11 ≤ t.length &&
  listContainsAux "in".toList ((t.toList.drop 7).take (t.length - 11))

/-- The alt-text prefixes rejected by `_create_paragraph` (all
`re.match`, i.e. anchored at the start of the lowered text). -/
def altTextPrefixes : List String :=
  ["image of", "picture of", "photo of", "illustration of",
   "graphic showing", "icon for", "logo for", "click to", "link to"]

def altTextPattern (tl : String) : Bool :=
  altTextPrefixes.any (fun p => strStartsWith tl p) || trustedAreaPattern tl

/-- `_create_paragraph(text, meta)`. -/
def createParagraph (text : String) (meta : Option String) : Option Block :=
  let t := pyStrip text
  if t.isEmpty || t.length < 3 then none
  else
    let t := collapseWs t
    if altTextPattern (pyLower t) then none
    else if t.length < 15 && ¬ hasSentencePunct t && ¬ hasDigit t then none
    else some (.paragraph t meta)

/-! ## Counter rewriter decision (`_detect_and_convert_counters_in_html`,
lines 613–634)

Once the per-child pattern matching has collected `counter_items`, the
container is replaced by a generated `<table><tbody>` exactly when at
least 3 items were collected and the rating-widget exclusion does not
fire.  The generated table HTML uses `html.escape` on each cell and is
re-parsed; escape-then-parse round-trips the cell text, so the resulting
tree carries the original strings. -/

/-- `any('rating' in label.lower() for _, label in counter_items)`. -/
def anyRatingLabel (items : List (String × String)) : Bool :=
  items.any fun vl => strContains (pyLower vl.2) "rating"

/-- The claim's wording: *all* labels contain the word "rating". -/
def allRatingLabels (items : List (String × String)) : Bool :=
  items.all fun vl => strContains (pyLower vl.2) "rating"

/-- `len(set(v for v, _ in counter_items)) == 1`. -/
def singleUniqueValue (items : List (String × String)) : Bool :=
  (items.map Prod.fst).eraseDups.length = 1

/-- The `<table><tbody>` node that replaces a qualifying container:
one `<tr><td>value</td><td>label</td></tr>` per item, in order. -/
def counterTableNode (items : List (String × String)) : HNode :=
  .elem "table" []
    [.elem "tbody" []
      (items.map fun vl =>
        .elem "tr" []
          [.elem "td" [] [.text vl.1], .elem "td" [] [.text vl.2]])]

/-- The replacement decision of lines 613–634: `some table` when the
container is replaced, `none` when it is left unchanged. -/
def counterDecision (items : List (String × String)) : Option HNode :=
  if 3 ≤ items.length then
    if anyRatingLabel items && singleUniqueValue items then none
    else some (counterTableNode items)
  else none

/-! ## FAQ/accordion classification (`_looks_like_faq_question`,
lines 2004–2015, and `_extract_accordion_or_faq`, lines 1586–1636) -/

def questionWords : List String :=
  ["what", "who", "where", "when", "why", "how", "can", "do", "does", "is",
   "are", "will", "would"]

/-- `re.search(r'^(what|who|...)\s+', t)`: a question word at the start
followed by at least one whitespace character. -/
def qwordPrefix (t : String) : Bool :=
  questionWords.any fun w =>
    strStartsWith t w &&
    (match t.toList.drop w.length with
     | [] => false
     | c :: _ => isPySpace c)

/-- `re.search(r'\?$', t)`: `?` at the very end, or before a final
newline (Python `$` semantics). -/
def regexQDollar (t : String) : Bool :=
  strEndsWith t "?" || strEndsWith t "?\n"

/-- `_looks_like_faq_question(text)`. -/
def looksLikeFaqQuestion (text : String) : Bool :=
  let tl := pyLower text
  qwordPrefix tl || regexQDollar tl || strStartsWith tl "faq"

/-- The `is_faq` classification: `title.strip().endswith('?') or
self._looks_like_faq_question(title)` (line 1616). -/
def detailsIsFaq (title : String) : Bool :=
  strEndsWith (pyStrip title) "?" || looksLikeFaqQuestion title

/-- The classification in the claim's words: FAQ iff the title ends with
`?` or starts with one of the question words.  (Definition follows the
claim, for comparison with `detailsIsFaq`.) -/
def claimFaqClassification (title : String) : Bool :=
  strEndsWith title "?" ||
  (questionWords.any fun w =>
    pyLower title = w || strStartsWith (pyLower title) (w ++ " "))

/-- First element descendant of `n` (document order) satisfying `p`,
returned with its path: bs4 `elem.find(...)`. -/
def findDescPath (n : HNode) (p : HNode → Bool) : Option HPath :=
  (descPaths n).find? fun q =>
    match nodeAt? n q with
    | some m => m.isElem && p m
    | none => false

/-- The fallback paragraph appended when no answer content is found. -/
def fallbackAnswer : Block :=
  .paragraph "Insufficient evidence: answer container not found in DOM" none

/-- The child-content loop of `_extract_accordion_or_faq`
(lines 1596–1614).  `childExtract c` stands for the blocks that the
recursive call `_extract_blocks_recursive(c, content_blocks)` appends for
a child `c`. -/
def accordionContent (cfg : Config) (parents : List HNode)
    (childExtract : HNode → List Block) (n : HNode) : List Block :=
  n.childrenD.foldl
    (fun acc child =>
      match child with
      | .text s =>
        let t := pyStrip s
        if ¬ t.isEmpty && 10 < t.length then
          match createParagraph t none with
          | some p => acc ++ [p]
          | none => acc
        else acc
      | c =>
        if c.nameD = "summary" then acc
        else
          let got := childExtract c
          if got.isEmpty then
            let t := pyStrip (getVisibleTextSimple cfg (n :: parents) c)
            if ¬ t.isEmpty then
              match createParagraph t none with
              | some p => acc ++ [p]
              | none => acc
            else acc
          else acc ++ got)
    []

/-- `_extract_accordion_or_faq` (lines 1586–1636). -/
def extractAccordionOrFaq (cfg : Config) (parents : List HNode)
    (childExtract : HNode → List Block) (n : HNode) : Option Block :=
  match findDescPath n (fun d => d.nameD = "summary") with
  | none => none
  | some spath =>
    match nodeAt? n spath with
    | none => none
    | some snode =>
      let title := pyStrip
        (getVisibleTextSimple cfg (ancestorsOf n spath ++ parents) snode)
      if title.isEmpty then none
      else
        let content := accordionContent cfg parents childExtract n
        let content := if content.isEmpty then [fallbackAnswer] else content
        if detailsIsFaq title then some (.faq title content)
        else some (.accordion title content)

/-! ## Python `int()` and `aria-level` heading levels -/

/-- Decimal digits with optional single underscores between digits
(the tail of Python's `int()` grammar). -/
def pyDigitsVal : Nat → List Char → Option Nat
  | acc, [] => some acc
  | acc, '_' :: d :: rest =>
    if d.isDigit then pyDigitsVal (acc * 10 + (d.toNat - 48)) rest else none
  | _, ['_'] => none
  | acc, d :: rest =>
    if d.isDigit then pyDigitsVal (acc * 10 + (d.toNat - 48)) rest else none

/-- Model of Python `int(s)`: optional surrounding whitespace, optional
sign, then decimal digits with optional single underscores between
digits.  `none` models the `ValueError` raised on anything else. -/
def pyInt? (s : String) : Option Int :=
  match (pyStrip s).toList with
  | [] => none
  | '+' :: d :: rest =>
    if d.isDigit then (pyDigitsVal (d.toNat - 48) rest).map (fun v => (v : Int))
    else none
  | '-' :: d :: rest =>
    if d.isDigit then (pyDigitsVal (d.toNat - 48) rest).map (fun v => -(v : Int))
    else none
  | d :: rest =>
    if d.isDigit then (pyDigitsVal (d.toNat - 48) rest).map (fun v => (v : Int))
    else none

/-- `_extract_role_heading` (lines 1340–1353).  This helper clamps
`aria-level` into 1..6 — but no call site exists anywhere in the program:
it is dead code.  `Except.error` models the `ValueError` that
`int(elem.get('aria-level', 2))` would raise on a non-numeric value. -/
def extractRoleHeading (cfg : Config) (parents : List HNode) (n : HNode) :
    Except Unit (Option Block) :=
  let text := pyStrip (getVisibleTextSimple cfg parents n)
  if text.isEmpty then .ok none
  else
    match pyInt? (n.getAttrD "aria-level" "2") with
    | none => .error ()
    | some lv => .ok (some (.heading (max 1 (min 6 lv)) text none))

/-- The heading-level computation of `_detect_card_grid`
(lines 2475–2480), the one live consumer of `aria-level`:
`int(title_elem.get('aria-level', 4))` with **no clamping**, raising
`ValueError` (`Except.error`) on a non-numeric value. -/
def cardHeadingLevel (titleElem : HNode) : Except Unit Int :=
  if titleElem.nameD = "h2" || titleElem.nameD = "h3" || titleElem.nameD = "h4" then
    match titleElem.nameD.toList.get? 1 with
    | some c =>
      match pyInt? (String.mk [c]) with
      | some v => .ok v
      | none => .error ()
    | none => .error ()
  else
    match titleElem.getAttr "aria-level" with
    | some s =>
      if s.isEmpty then .ok 4
      else
        match pyInt? s with
        | some v => .ok v
        | none => .error ()
    | none => .ok 4

/-! ## List extraction (`_extract_list`, lines 1405–1444) -/

/-- bs4 `find(class_=re.compile(pat, re.I))` membership test: some single
class token matches the (unanchored, case-insensitive) pattern; for the
literal patterns used here this is substring containment. -/
def hasClassMatching (n : HNode) (pat : String) : Bool :=
  n.classTokens.any fun t => strContains (pyLower t) (pyLower pat)

/-- The per-`<li>` item text of the Elementor icon-list branch: text of
the first `elementor-icon-list-text` descendant if one exists (skipping
the item when that text is empty), else the `<li>`'s own text. -/
def iconListItemText (cfg : Config) (parents : List HNode) (n li : HNode) :
    Option String :=
  match findDescPath li (fun d => hasClassMatching d "elementor-icon-list-text") with
  | some tpath =>
    match nodeAt? li tpath with
    | some tnode =>
      let t := pyStrip
        (getVisibleTextSimple cfg (ancestorsOf li tpath ++ n :: parents) tnode)
      if ¬ t.isEmpty then some t else none
    | none => none
  | none =>
    let t := pyStrip (getVisibleTextSimple cfg (n :: parents) li)
    if ¬ t.isEmpty then some t else none

/-- The `items` list collected by `_extract_list` (Elementor icon-list
branch first, standard `<li>` extraction as fallback). -/
def listItems (cfg : Config) (parents : List HNode) (n : HNode) : List String :=
  let lis := n.childrenD.filter fun c => c.isElem && c.nameD = "li"
  let elementorItems :=
    if n.nameD = "ul" && strContains n.classStr "elementor-icon-list-items" then
      lis.filterMap (iconListItemText cfg parents n)
    else []
  if elementorItems.isEmpty then
    lis.filterMap fun li =>
      let t := pyStrip (getVisibleTextSimple cfg (n :: parents) li)
      if ¬ t.isEmpty then some t else none
  else elementorItems

/-- `_extract_list`: requires at least 2 items. -/
def extractList (cfg : Config) (parents : List HNode) (n : HNode) :
    Option Block :=
  if (listItems cfg parents n).length < 2 then none
  else some (.list (n.nameD = "ol") (listItems cfg parents n))

/-! ## Card-grid title-list fallback (`_detect_card_grid`,
lines 2424–2431 and 2504–2518)

`_extract_icon_list` (lines 1480–1532) also builds `list` blocks but has
no call site anywhere in the program: it is dead code, so the live `list`
producers are `_extract_list`, this fallback, and the section-scoped grid
fallback pass below. -/

/-- The class fallback of `find_title_element`: bs4
`find(class_=re.compile(r'title|card-title|heading', re.I))` — some class
token contains (case-insensitively) `title`, `card-title` or `heading`. -/
def titleClassMatch (n : HNode) : Bool :=
  hasClassMatching n "title" || hasClassMatching n "card-title" ||
    hasClassMatching n "heading"

/-- `find_title_element` (lines 2424–2431): first `h2`/`h3`/`h4`
descendant, else first descendant with `role="heading"`, else first
descendant with a class matching `title|card-title|heading`. -/
def findTitleElement (card : HNode) : Option HNode :=
  match findDescPath card
      (fun d => d.nameD = "h2" || d.nameD = "h3" || d.nameD = "h4") with
  | some p => nodeAt? card p
  | none =>
    match findDescPath card (fun d => d.getAttr "role" = some "heading") with
    | some p => nodeAt? card p
    | none =>
      match findDescPath card titleClassMatch with
      | some p => nodeAt? card p
      | none => none

/-- The `unique_titles` loop of lines 2505–2511: each card's
`get_text(strip=True)` title, nonempty ones only, first occurrence kept,
in card order. -/
def uniqueTitlesGo (acc : List String) : List HNode → List String
  | [] => acc
  | card :: rest =>
    match findTitleElement card with
    | some te =>
      let t := te.getTextStrip ""
      if ¬ t.isEmpty && ¬ acc.contains t then uniqueTitlesGo (acc ++ [t]) rest
      else uniqueTitlesGo acc rest
    | none => uniqueTitlesGo acc rest

/-- The title-list fallback of `_detect_card_grid` (lines 2504–2518): on
the `cards_with_desc < len(card_candidates) * 0.6` branch, return a
single unordered `list` of the unique card titles when at least 6 were
collected, else `None`. -/
def cardGridTitleListFallback (cardCandidates : List HNode) :
    Option (List Block) :=
  if 6 ≤ (uniqueTitlesGo [] cardCandidates).length then
    some [Block.list false (uniqueTitlesGo [] cardCandidates)]
  else none

/-! ## Paragraph extraction (`_extract_paragraph`, lines 1355–1361) -/

def extractParagraph (cfg : Config) (parents : List HNode) (n : HNode) :
    Option Block :=
  let text := pyStrip (getVisibleTextSimple cfg parents n)
  if text.isEmpty then none else createParagraph text none

/-! ## ARIA tabset extraction (`_extract_tabset`, lines 1705–1770)

The recursive panel-content extraction (`_extract_panel_blocks`, which
runs the walker over the panel with a fresh `consumed_panel_nodes` set)
is passed in as `panelExtract : HPath → List Block`.  Note that
`_extract_tabset` never touches `consumed_panel_nodes`: only the
pseudo-tabset path marks panels consumed. -/

/-- A truthy attribute: present and non-empty (`elem.get(k)` used as a
boolean). -/
def attrTruthy (n : HNode) (key : String) : Option String :=
  match n.getAttr key with
  | some s => if s.isEmpty then none else some s
  | none => none

/-- `_build_id_index` + dict lookup: the **last** element (document
order, root included) carrying `id=idv`, since later index assignments
overwrite earlier ones. -/
def idLookup (root : HNode) (idv : String) : Option HPath :=
  ((subtreePaths root).filter fun p =>
    match nodeAt? root p with
    | some m => m.isElem && m.getAttr "id" = some idv
    | none => false).getLast?

/-- Element next-siblings of the node at `p` (nearest first):
`find_next_siblings()` filtered to tags. -/
def nextSiblingElemPaths (root : HNode) (p : HPath) : List HPath :=
  match p.getLast? with
  | none => []
  | some i =>
    let par := p.dropLast
    match nodeAt? root par with
    | none => []
    | some pn =>
      (List.range pn.childrenD.length).filterMap fun j =>
        if i < j then
          match pn.childrenD.get? j with
          | some c => if c.isElem then some (par ++ [j]) else none
          | none => none
        else none

/-- `_extract_tabset` on the element at `epath` inside the main-content
tree `root`. -/
def extractTabset (cfg : Config) (root : HNode)
    (panelExtract : HPath → List Block) (epath : HPath) : Option Block :=
  match nodeAt? root epath with
  | none => none
  | some elem =>
    let tabPathsLocal := (descPaths elem).filter fun q =>
      match nodeAt? elem q with
      | some m => m.isElem && m.getAttr "role" = some "tab"
      | none => false
    let tabPaths :=
      if tabPathsLocal.isEmpty then
        (List.range elem.childrenD.length).filterMap fun j =>
          match elem.childrenD.get? j with
          | some c =>
            if c.isElem &&
                c.classTokens.any (fun t => strContains (pyLower t) "tab") then
              some [j]
            else none
          | none => none
      else tabPathsLocal
    if tabPaths.isEmpty then none
    else
      let allPanels := (descPaths root).filter fun p =>
        match nodeAt? root p with
        | some m => m.isElem && m.getAttr "role" = some "tabpanel"
        | none => false
      let tabs := tabPaths.filterMap fun q =>
        let full := epath ++ q
        match nodeAt? root full with
        | none => none
        | some tabN =>
          let title := pyStrip (getVisibleTextSimple cfg (ancestorsOf root full) tabN)
          if title.isEmpty then none
          else
            let cb1 : List Block :=
              match (attrTruthy tabN "aria-controls").orElse
                  (fun _ => (attrTruthy tabN "data-target").orElse
                    (fun _ => attrTruthy tabN "data-tab")) with
              | some pid =>
                match idLookup root (String.mk (pid.toList.dropWhile (fun c => c = '#'))) with
                | some ppath => panelExtract ppath
                | none => []
              | none => []
            let cb2 :=
              if cb1.isEmpty then
                match attrTruthy tabN "id" with
                | some tid =>
                  match allPanels.find? (fun pp =>
                    match nodeAt? root pp with
                    | some pm => pm.getAttr "aria-labelledby" = some tid
                    | none => false) with
                  | some pp => panelExtract pp
                  | none => []
                | none => []
              else cb1
            let cb3 :=
              if cb2.isEmpty then
                match (nextSiblingElemPaths root full).find? (fun sp =>
                  match nodeAt? root sp with
                  | some sm => sm.getAttr "role" = some "tabpanel"
                  | none => false) with
                | some sp => panelExtract sp
                | none => []
              else cb2
            some (TabEntry.mk title cb3)
      if tabs.isEmpty then none
      else some (.tabset tabs)

/-! ## Consumed panels and the pseudo-tabset extractor
(`_mark_panel_consumed` lines 1772–1783, `_is_inside_consumed_panel`
lines 925–932, the walker skip at lines 964–970, `_is_in_tabset`
lines 1034–1040, `_extract_pseudo_tabset` lines 1945–2002) -/

/-- `_mark_panel_consumed`: add the panel (by identity, i.e. path) to
`consumed_panel_nodes`. -/
def markPanelConsumed (consumed : List HPath) (panel : HPath) : List HPath :=
  panel :: consumed

/-- `_is_inside_consumed_panel`: some ancestor is a consumed panel. -/
def isInsideConsumedPanel (consumed : List HPath) (p : HPath) : Bool :=
  (ancestorPaths p).any fun q => consumed.contains q

/-- The walker's consumed-node skip (lines 964–970): the node itself is
consumed, or it sits inside a consumed panel. -/
def walkerSkipsConsumed (consumed : List HPath) (p : HPath) : Bool :=
  consumed.contains p || isInsideConsumedPanel consumed p

/-- `_is_in_tabset`: some ancestor has `role="tablist"`. -/
def isInTabset (root : HNode) (p : HPath) : Bool :=
  (ancestorsOf root p).any fun a => a.isElem && a.getAttr "role" = some "tablist"

/-- `block.get('text', '')` over the block variants. -/
def Block.textField : Block → String
  | .heading _ t _ => t
  | .paragraph t _ => t
  | .cta t _ _ => t
  | _ => ""

/-- The per-anchor loop of `_extract_pseudo_tabset`: build one tab per
anchor (empty content when the target id resolves to nothing), filter out
panel blocks whose text equals the anchor text, and mark each resolved
panel consumed. -/
def pseudoLoop (root : HNode) (panelExtract : HPath → List Block) :
    List (String × String) → List HPath → List TabEntry × List HPath
  | [], consumed => ([], consumed)
  | (anchorText, targetId) :: rest, consumed =>
    match idLookup root targetId with
    | none =>
      (TabEntry.mk anchorText []
          :: (pseudoLoop root panelExtract rest consumed).1,
        (pseudoLoop root panelExtract rest consumed).2)
    | some ppath =>
      let filtered := (panelExtract ppath).filter fun b =>
        let bt := pyStrip b.textField
        ¬ (¬ bt.isEmpty && bt = anchorText)
      (TabEntry.mk anchorText filtered
          :: (pseudoLoop root panelExtract rest
              (markPanelConsumed consumed ppath)).1,
        (pseudoLoop root panelExtract rest
          (markPanelConsumed consumed ppath)).2)

/-- `_extract_pseudo_tabset`: needs at least 2 tabs; panels are already
marked consumed even when the tabset is rejected (faithful to the
source's in-loop mutation). -/
def extractPseudoTabset (root : HNode) (panelExtract : HPath → List Block)
    (anchorList : List (String × String)) (consumed : List HPath) :
    Option Block × List HPath :=
  if (pseudoLoop root panelExtract anchorList consumed).1.length < 2 then
    (none, (pseudoLoop root panelExtract anchorList consumed).2)
  else
    (some (.tabset (pseudoLoop root panelExtract anchorList consumed).1),
      (pseudoLoop root panelExtract anchorList consumed).2)

/-- Concrete document for the ARIA-tabset duplication scenario: a main
content area with an `<h1>`, a `role="tablist"` with two `aria-controls`
tabs, and the two referenced panels as *siblings* of the tablist. -/
def ariaTabsetDoc : HNode :=
  .elem "main" []
    [.elem "h1" [] [.text "T"],
     .elem "div" [("role", "tablist")]
       [.elem "button" [("role", "tab"), ("aria-controls", "p1")]
          [.text "Tab1"],
        .elem "button" [("role", "tab"), ("aria-controls", "p2")]
          [.text "Tab2"]],
     .elem "div" [("role", "tabpanel"), ("id", "p1")]
       [.elem "p" [] [.text "Alpha content here."]],
     .elem "div" [("role", "tabpanel"), ("id", "p2")]
       [.elem "p" [] [.text "Beta content here."]]]

/-- The recursive panel extraction (`_extract_panel_blocks`) instantiated
at the panels of `ariaTabsetDoc`: on a `<div>` whose children are `<p>`
elements the walker reduces to paragraph extraction of each child. -/
def paraPanelWalk (root : HNode) (p : HPath) : List Block :=
  match nodeAt? root p with
  | some pn =>
    pn.childrenD.filterMap fun c =>
      extractParagraph defaultConfig (pn :: ancestorsOf root p) c
  | none => []

/-! ## Post-processing passes (block-level) -/

/-- `block.get('type')`. -/
def Block.typeName : Block → String
  | .heading .. => "heading"
  | .paragraph .. => "paragraph"
  | .list .. => "list"
  | .table _ => "table"
  | .cta .. => "cta"
  | .accordion .. => "accordion"
  | .faq .. => "faq"
  | .tabset _ => "tabset"

/-- `block["meta"] = {"role": "eyebrow"}` on the (paragraph) block. -/
def Block.withEyebrowMeta : Block → Block
  | .paragraph t _ => .paragraph t (some "eyebrow")
  | .heading l t _ => .heading l t (some "eyebrow")
  | .cta t h _ => .cta t h (some "eyebrow")
  | b => b

/-- `_is_eyebrow_paragraph` (lines 1134–1174). -/
def isEyebrowParagraph (b : Block) (next : Option Block) (i : Nat)
    (all : List Block) : Bool :=
  match b with
  | .paragraph txt _ =>
    let t := pyStrip txt
    if 40 ≤ t.length then false
    else if hasSentencePunct t then false
    else if ¬ hasAsciiLetter t then false
    else if ((List.range i).drop (i - 10)).any (fun j =>
        match all.get? j with
        | some prev =>
          (["list", "table", "faq", "accordion"].contains prev.typeName) &&
            i - j ≤ 2
        | none => false) then false
    else
      match next with
      | some (.heading lv _ _) => 2 ≤ lv && lv ≤ 3
      | _ => false
  | _ => false

/-- The per-index body of `_annotate_eyebrows` (lines 1184–1223):
`none` models `continue` (dropping the block). -/
def annotateEyebrowAt (cfg : Config) (blocks : List Block) (i : Nat) :
    Option Block :=
  match blocks.get? i with
  | none => none
  | some b =>
    let next := blocks.get? (i + 1)
    let conv : Block × Bool :=
      match b with
      | .heading lv txt m =>
        if 5 ≤ lv then
          let t := pyStrip txt
          let nextIsPara : Bool :=
            match next with
            | some (.paragraph _ _) => true
            | _ => false
          if t.length < 40 ∧ ¬ hasInternalPunct t ∧ hasAsciiLetter t ∧
              ¬ nextIsPara then
            (.paragraph t none, true)
          else (.heading lv txt m, false)
        else (.heading lv txt m, false)
      | other => (other, false)
    let isEyebrow := conv.2 || isEyebrowParagraph conv.1 next i blocks
    if isEyebrow then
      if cfg.eyebrowMode = "drop" then none
      else if cfg.eyebrowMode = "annotate" then some conv.1.withEyebrowMeta
      else some conv.1
    else some conv.1

/-- `_annotate_eyebrows` (lines 1176–1225). -/
def annotateEyebrows (cfg : Config) (blocks : List Block) : List Block :=
  if cfg.eyebrowMode = "keep" then blocks
  else (List.range blocks.length).filterMap (annotateEyebrowAt cfg blocks)

/-- The per-index body of `_normalize_h5_h6_eyebrows` (lines 1235–1266). -/
def normalizeH5H6At (cfg : Config) (blocks : List Block) (i : Nat) :
    Option Block :=
  match blocks.get? i with
  | none => none
  | some b =>
    match b with
    | .heading lv txt m =>
      if 5 ≤ lv then
        let t := pyStrip txt
        let next := blocks.get? (i + 1)
        let nextH2H3 : Bool :=
          match next with
          | some (.heading nl _ _) => 2 ≤ nl && nl ≤ 3
          | _ => false
        if t.length < 40 ∧ ¬ hasInternalPunct t ∧ hasAsciiLetter t ∧
            nextH2H3 then
          if cfg.eyebrowMode = "drop" then none
          else if cfg.eyebrowMode = "annotate" then
            some (.paragraph t (some "eyebrow"))
          else some (.heading lv txt m)
        else some (.heading lv txt m)
      else some b
    | other => some other

/-- `_normalize_h5_h6_eyebrows` (lines 1227–1268). -/
def normalizeH5H6Eyebrows (cfg : Config) (blocks : List Block) : List Block :=
  if cfg.eyebrowMode = "keep" then blocks
  else (List.range blocks.length).filterMap (normalizeH5H6At cfg blocks)

/-- `re.search(r'/\d{4}/\d{2}/\d{2}/', u)`: a `/YYYY/MM/DD/` path
segment somewhere in the string. -/
def hasDatePathAt : List Char → Bool
  | '/' :: a :: b :: c :: d :: '/' :: e :: f :: '/' :: g :: h :: '/' :: _ =>
    a.isDigit && b.isDigit && c.isDigit && d.isDigit && e.isDigit &&
    f.isDigit && g.isDigit && h.isDigit
  | _ => false

def anySuffix (p : List Char → Bool) : List Char → Bool
  | [] => p []
  | c :: rest => p (c :: rest) || anySuffix p rest

/-- The blog-URL patterns of `_is_blog_post_page` /
`_remove_blog_feed_sections` applied to the lowered source URL. -/
def urlIsBlogPost (url : String) : Bool :=
  let u := pyLower url
  anySuffix hasDatePathAt u.toList || strContains u "/blog/" ||
    strContains u "/posts/"

/-- An H2 heading whose text contains "blog" or "posts". -/
def isBlogFeedH2 : Block → Bool
  | .heading 2 t _ =>
    strContains (pyLower t) "blog" || strContains (pyLower t) "posts"
  | _ => false

def isH2Block : Block → Bool
  | .heading 2 _ _ => true
  | _ => false

mutual

/-- The main loop of `_remove_blog_feed_sections` (lines 1288–1323). -/
def blogFeedGo : List Block → List Block
  | [] => []
  | b :: rest =>
    if isBlogFeedH2 b then blogFeedSkip rest
    else b :: blogFeedGo rest

/-- Skip blocks until the next H2 that is not blog-related; that H2 is
kept and processing resumes. -/
def blogFeedSkip : List Block → List Block
  | [] => []
  | b :: rest =>
    if isH2Block b && ¬ isBlogFeedH2 b then b :: blogFeedGo rest
    else blogFeedSkip rest

end

/-- `_remove_blog_feed_sections` (lines 1270–1324). -/
def removeBlogFeedSections (url : String) (blocks : List Block) :
    List Block :=
  if urlIsBlogPost url then blocks else blogFeedGo blocks

/-- The unique-H4 collection of `_section_scoped_grid_fallback`
(lines 2220–2232): indices and (stripped) titles of unique H4 headings in
a section, skipping tabset/accordion/faq blocks. -/
def collectH4s : Nat → List Block → List String → List Nat × List String
  | _, [], _ => ([], [])
  | idx, sb :: rest, seen =>
    match sb with
    | .tabset _ => collectH4s (idx + 1) rest seen
    | .accordion _ _ => collectH4s (idx + 1) rest seen
    | .faq _ _ => collectH4s (idx + 1) rest seen
    | .heading 4 t _ =>
      let tt := pyStrip t
      let key := pyLower tt
      if ¬ tt.isEmpty && ¬ seen.contains key then
        (idx :: (collectH4s (idx + 1) rest (key :: seen)).1,
          tt :: (collectH4s (idx + 1) rest (key :: seen)).2)
      else collectH4s (idx + 1) rest seen
    | _ => collectH4s (idx + 1) rest seen

/-- The skip set of lines 2242–2248: each H4 index plus the first
paragraph among the 3 following section blocks. -/
def skipIndicesOf (sect : List Block) (h4idx : List Nat) : List Nat :=
  h4idx.flatMap fun idx =>
    idx ::
      (match ([idx + 1, idx + 2, idx + 3].filter (fun k => k < sect.length)).find?
          (fun k =>
            match sect.get? k with
            | some sb => sb.typeName = "paragraph"
            | none => false) with
      | some k => [k]
      | none => [])

/-- The rebuild loop of lines 2250–2261: insert the grid list before the
first H4, dropping the skipped blocks. -/
def rebuildGo (grid : List Block) (firstH4 : Nat) (skips : List Nat) :
    Nat → Bool → List Block → List Block
  | _, inserted, [] => if inserted then [] else grid
  | idx, inserted, sb :: rest =>
    let pre : List Block × Bool :=
      if idx = firstH4 && ¬ inserted then (grid, true) else ([], inserted)
    if skips.contains idx then
      pre.1 ++ rebuildGo grid firstH4 skips (idx + 1) pre.2 rest
    else
      pre.1 ++ (sb :: rebuildGo grid firstH4 skips (idx + 1) pre.2 rest)

/-- `_section_scoped_grid_fallback` (lines 2199–2269). -/
def sectionScopedGridFallback : List Block → List Block
  | [] => []
  | b :: rest =>
    if isH2Block b then
      let sect := rest.takeWhile (fun sb => ¬ isH2Block sb)
      let after := rest.drop sect.length
      let collected := collectH4s 0 sect []
      if 6 ≤ collected.2.length then
        let grid := [Block.list false collected.2]
        (b :: rebuildGo grid (collected.1.headD 0)
            (skipIndicesOf sect collected.1) 0 false sect)
          ++ sectionScopedGridFallback after
      else b :: sectionScopedGridFallback rest
    else b :: sectionScopedGridFallback rest
  termination_by l => l.length
  decreasing_by
    all_goals simp_wf
    all_goals omega

/-! ## Deduplication (`_deduplicate_blocks`, `_normalize_block_text`,
`_extract_blocks_text`, lines 2271–2371)

The `hashlib.md5(...).hexdigest()[:8]` call is abstracted as a `hash`
parameter (a pure function of the hashed string). -/

/-- Python `str(bool)`. -/
def pyBoolRepr (b : Bool) : String := if b then "True" else "False"

/-- `_extract_blocks_text` (lines 2358–2371). -/
def extractBlocksTextParts : List Block → List String
  | [] => []
  | b :: rest =>
    (match b with
     | .paragraph t _ => [t]
     | .heading _ t _ => [t]
     | .list _ items => items
     | .table rows => rows.flatten
     | _ => []) ++ extractBlocksTextParts rest

def extractBlocksText (bs : List Block) : String :=
  pyLower (String.intercalate "|" (extractBlocksTextParts bs))

/-- `_normalize_block_text` (lines 2321–2356). -/
def normalizeBlockText (hash : String → String) : Block → String
  | .heading lv t _ =>
    "heading:" ++ toString lv ++ ":" ++ pyStrip (pyLower t)
  | .paragraph t _ => "paragraph:" ++ pyStrip (pyLower t)
  | .list o items =>
    "list:" ++ pyBoolRepr o ++ ":"
      ++ String.intercalate "|" (items.map (fun i => pyStrip (pyLower i)))
  | .cta t h _ =>
    "cta:" ++ pyStrip (pyLower t) ++ ":" ++ pyStrip (pyLower (h.getD ""))
  | .table rows =>
    "table:" ++ String.intercalate "|"
      (rows.map (fun r =>
        String.intercalate "|" (r.map (fun c => pyStrip (pyLower c)))))
  | .faq q ab =>
    "faq:" ++ pyStrip (pyLower q) ++ ":" ++ hash (extractBlocksText ab)
  | .accordion ti cb =>
    "accordion:" ++ pyStrip (pyLower ti) ++ ":" ++ hash (extractBlocksText cb)
  | .tabset tabs =>
    "tabset:" ++ String.intercalate "|"
      (tabs.map (fun tab => pyStrip (pyLower tab.title)))

/-- The 30-entry sliding-window loop of `_deduplicate_blocks`
(lines 2292–2319); `seen` holds the window keys in insertion order. -/
def dedupWindow (hash : String → String) :
    List String → List Block → List Block
  | _, [] => []
  | seen, b :: rest =>
    let key := normalizeBlockText hash b
    if ¬ key.isEmpty ∧ seen.contains key then dedupWindow hash seen rest
    else
      let seen' :=
        if ¬ key.isEmpty then
          let s2 := seen ++ [key]
          if 30 < s2.length then s2.tail else s2
        else seen
      b :: dedupWindow hash seen' rest

mutual

/-- `_deduplicate_blocks` (lines 2271–2319): first deduplicate inside
each tabset's tab contents, then run the sliding window. -/
def deduplicateBlocks (hash : String → String) (blocks : List Block) :
    List Block :=
  dedupWindow hash [] (preprocessTabsets hash blocks)

def preprocessTabsets (hash : String → String) : List Block → List Block
  | [] => []
  | .tabset tabs :: rest =>
    .tabset (dedupTabs hash tabs) :: preprocessTabsets hash rest
  | b :: rest => b :: preprocessTabsets hash rest

def dedupTabs (hash : String → String) : List TabEntry → List TabEntry
  | [] => []
  | .mk ti cb :: rest =>
    .mk ti (deduplicateBlocks hash cb) :: dedupTabs hash rest

end

/-! ## The post-processing pipeline and the `_extract_blocks` skeleton -/

/-- The block-level post-processing sequence of `_extract_blocks`
(lines 137–190): eyebrow annotation, H5/H6 normalization, blog-feed
removal, H2-scoped grid fallback, deduplication, H1 validation. -/
def postPipeline (cfg : Config) (hash : String → String) (url : String)
    (blocks : List Block) : List Block × Validation :=
  validateH1 (deduplicateBlocks hash (sectionScopedGridFallback
    (removeBlogFeedSections url
      (normalizeH5H6Eyebrows cfg (annotateEyebrows cfg blocks)))))

/-- The document returned when `_find_main_content` yields nothing
(line 111). -/
def noMainResult : List Block × Validation :=
  ([], ⟨"warn", 0, ["No H1 found in extracted blocks."]⟩)

/-- The skeleton of `_extract_blocks` (lines 107–150): find the main
content, clone it (`str` + re-parse + `find`), prune and rewrite counters
on the **clone**, walk it, post-process.  The second component of the
result is the extractor's original soup *after* the call: every mutating
pass receives the clone, so the soup is returned untouched, whatever the
passes do. -/
def extractBlocksPipeline (finder : HNode → Option HPath)
    (clone : HNode → HNode) (prune : HNode → HNode)
    (counters : HNode → HNode) (walk : HNode → List Block)
    (post : List Block → List Block × Validation) (soup : HNode) :
    (List Block × Validation) × HNode :=
  match finder soup with
  | none => (noMainResult, soup)
  | some mcPath =>
    match nodeAt? soup mcPath with
    | none => (noMainResult, soup)
    | some mc =>
      let mainContent := clone mc
      let pruned := prune mainContent
      let counted := counters pruned
      (post (walk counted), soup)

/-- Model of `str()` on a tag subtree (used for the before/after
serialization comparison of the original soup; attribute quoting and void
elements are simplified, text escaping of `&`, `<`, `>` is kept). -/
def escapeHtmlText (s : String) : String :=
  String.join (s.toList.map fun c =>
    if c = '&' then "&amp;"
    else if c = '<' then "&lt;"
    else if c = '>' then "&gt;"
    else String.mk [c])

mutual

def serializeNode : HNode → String
  | .text s => escapeHtmlText s
  | .elem name attrs cs =>
    "<" ++ name
      ++ String.join (attrs.map fun kv =>
          " " ++ kv.1 ++ "=" ++ "\"" ++ kv.2 ++ "\"")
      ++ ">" ++ serializeNodes cs ++ "</" ++ name ++ ">"

def serializeNodes : List HNode → String
  | [] => ""
  | c :: cs => serializeNode c ++ serializeNodes cs

end

theorem countH1_nil : countH1 [] = 0 := rfl

theorem countH1_cons (b : Block) (l : List Block) :
    countH1 (b :: l) = (if b.isH1 then 1 else 0) + countH1 l := by
  by_cases hb : b.isH1 <;> simp [countH1, List.filter_cons, hb] ; omega

theorem keepFirstH1_go_count_true (blocks : List Block) :
    countH1 (keepFirstH1.go true blocks) = 0 := by
  induction blocks with
  | nil => simp [keepFirstH1.go, countH1_nil]
  | cons b rest ih =>
    by_cases hb : b.isH1 <;> simp [keepFirstH1.go, hb, countH1_cons, ih]

theorem keepFirstH1_count_le_one (blocks : List Block) :
    countH1 (keepFirstH1 blocks) ≤ 1 := by
  unfold keepFirstH1
  induction blocks with
  | nil => simp [keepFirstH1.go, countH1_nil]
  | cons b rest ih =>
    by_cases hb : b.isH1
    · simp only [keepFirstH1.go, hb, if_true]
      have h0 := keepFirstH1_go_count_true rest
      simp [countH1_cons, hb, h0]
    · simpa only [keepFirstH1.go, hb, if_false, countH1_cons, Bool.false_eq_true,
        zero_add] using ih

/-- C3: after the H1 validation step that closes `_extract_blocks`, the
returned block sequence has at most one top-level `heading` with `level=1`;
and whenever the incoming sequence has `N > 1` level-1 headings, the result
is the incoming sequence with every H1 after the first dropped, the
validation status is `"warn"`, and the message
`"Multiple H1 headings found (N). Kept the first."` is recorded. -/
theorem claim_C3_h1_validation (blocks : List Block) (N : Nat)
    (hN : countH1 blocks = N) (hgt : 1 < N) :
    countH1 (validateH1 blocks).1 ≤ 1 ∧
    (validateH1 blocks).1 = keepFirstH1 blocks ∧
    (validateH1 blocks).2.status = "warn" ∧
    ("Multiple H1 headings found (" ++ toString N ++ "). Kept the first.")
      ∈ (validateH1 blocks).2.messages := by
  subst hN
  have hne : ¬ countH1 blocks = 0 := by omega
  unfold validateH1
  rw [if_neg hne, if_pos hgt]
  exact ⟨keepFirstH1_count_le_one blocks, rfl, rfl, by simp⟩

/-- Witness for `claim_C3_h1_validation` at a concrete two-H1 input. -/
theorem claim_C3_h1_validation_witness :
    countH1 (validateH1 [Block.heading 1 "A" none, Block.paragraph "p" none,
        Block.heading 1 "B" none]).1 ≤ 1 ∧
    (validateH1 [Block.heading 1 "A" none, Block.paragraph "p" none,
        Block.heading 1 "B" none]).1
      = keepFirstH1 [Block.heading 1 "A" none, Block.paragraph "p" none,
        Block.heading 1 "B" none] ∧
    (validateH1 [Block.heading 1 "A" none, Block.paragraph "p" none,
        Block.heading 1 "B" none]).2.status = "warn" ∧
    ("Multiple H1 headings found (2). Kept the first.")
      ∈ (validateH1 [Block.heading 1 "A" none, Block.paragraph "p" none,
        Block.heading 1 "B" none]).2.messages :=
  claim_C3_h1_validation _ 2 rfl (by omega)

/-- C6: whatever `_extract_cta` emits (it is the sole producer of `cta`
blocks), the block never carries `href = "#"` or an `href` starting with
`javascript:`; and when the emitted `href` is a fragment (starts with `#`)
it is the element's `href` attribute unchanged and the block carries
`meta.role = "router"`.  The hypothesis `hres` captures the behaviour of
`urllib.parse.urljoin` on the hrefs that reach it: joining a nonempty
non-fragment, non-`javascript:` href never yields `"#"`, a `javascript:`
URL, or a fragment-only URL. -/
theorem claim_C6_cta_href_policy (cfg : Config)
    (resolve : String → String → String) (canonicalHref : Option String)
    (parents : List HNode) (n : HNode) (t : String) (h : String)
    (m : Option String)
    (hres : ∀ base u, ¬ u.isEmpty → ¬ strStartsWith u "#" →
      ¬ strStartsWith u "javascript:" →
      resolve base u ≠ "#" ∧ ¬ strStartsWith (resolve base u) "javascript:" ∧
        ¬ strStartsWith (resolve base u) "#")
    (hb : extractCta cfg resolve canonicalHref parents n
      = some (Block.cta t (some h) m)) :
    h ≠ "#" ∧ ¬ strStartsWith h "javascript:" ∧
    (strStartsWith h "#" → m = some "router" ∧ n.getAttr "href" = some h) := by
  unfold extractCta at hb
  by_cases htext : (pyStrip (getVisibleTextSimple cfg parents n)).isEmpty
  · simp [htext] at hb
  by_cases hname : n.nameD = "a"
  case neg => simp [htext, hname] at hb
  rcases hhref : n.getAttr "href" with _ | h0
  · rw [hhref] at hb; simp [htext, hname] at hb
  rw [hhref] at hb
  by_cases hemp : h0.isEmpty
  · simp [htext, hname, hemp] at hb
  by_cases hjs : strStartsWith h0 "javascript:" || h0 = "#"
  · simp [htext, hname, hemp, hjs] at hb
  have hjs1 : ¬ strStartsWith h0 "javascript:" := by
    intro hc; exact hjs (by simp [hc])
  have hjs2 : h0 ≠ "#" := by
    intro hc; exact hjs (by simp [hc])
  by_cases hfrag : strStartsWith h0 "#"
  · simp [htext, hname, hemp, hjs1, hjs2, hfrag] at hb
    obtain ⟨-, hh, hm⟩ := hb
    subst hh
    exact ⟨hjs2, hjs1, fun _ => ⟨hm.symm, rfl⟩⟩
  · simp [htext, hname, hemp, hjs1, hjs2, hfrag] at hb
    obtain ⟨-, hh, -⟩ := hb
    by_cases hrel : strStartsWith h0 "/" = true ∨ strStartsWith h0 "http" = false
    · rw [if_pos hrel] at hh
      rcases hcan : canonicalHref with _ | base
      · rw [hcan] at hh
        simp only at hh
        subst hh
        exact ⟨hjs2, hjs1, fun hc => absurd hc hfrag⟩
      · rw [hcan] at hh
        simp only at hh
        by_cases hbe : base.isEmpty
        · rw [if_neg (by simp [hbe])] at hh
          subst hh
          exact ⟨hjs2, hjs1, fun hc => absurd hc hfrag⟩
        · rw [if_pos (by simpa using hbe)] at hh
          subst hh
          obtain ⟨r1, r2, r3⟩ := hres base h0 hemp hfrag hjs1
          exact ⟨r1, r2, fun hc => absurd hc r3⟩
    · rw [if_neg hrel] at hh
      subst hh
      exact ⟨hjs2, hjs1, fun hc => absurd hc hfrag⟩

/-- Witness for `claim_C6_cta_href_policy` at the concrete button-like link
`<a class="btn" href="#quote">Get quote</a>` (scenario 7 of the spec). -/
theorem claim_C6_cta_href_policy_witness :
    extractCta defaultConfig (fun _ u => u) none []
        (HNode.elem "a" [("class", "btn"), ("href", "#quote")]
          [HNode.text "Get quote"])
      = some (Block.cta "Get quote" (some "#quote") (some "router")) ∧
    ("#quote" ≠ "#" ∧ ¬ strStartsWith "#quote" "javascript:" ∧
      (strStartsWith "#quote" "#" →
        (some "router" : Option String) = some "router" ∧
        (HNode.elem "a" [("class", "btn"), ("href", "#quote")]
          [HNode.text "Get quote"]).getAttr "href" = some "#quote")) := by
  have hres : ∀ base u : String, ¬ u.isEmpty → ¬ strStartsWith u "#" →
      ¬ strStartsWith u "javascript:" →
      u ≠ "#" ∧ ¬ strStartsWith u "javascript:" ∧ ¬ strStartsWith u "#" := by
    intro base u _ h2 h3
    refine ⟨?_, h3, h2⟩
    intro hc
    apply h2
    rw [hc]
    decide
  exact ⟨rfl,
    claim_C6_cta_href_policy defaultConfig (fun _ u => u) none []
      (HNode.elem "a" [("class", "btn"), ("href", "#quote")]
        [HNode.text "Get quote"])
      "Get quote" "#quote" (some "router") hres rfl⟩

theorem charToNat_ofNat (n : Nat) (h : n.isValidChar) :
    (Char.ofNat n).toNat = n := by
  unfold Char.ofNat
  rw [dif_pos h]
  unfold Char.ofNatAux Char.toNat
  simp [UInt32.toNat, UInt32.ofNat']

/-- `Char.toLower` only moves code points 65–90; a target below 65 is hit
only by itself. -/
theorem toLower_fix_low (ch c : Char) (hch : ch.toNat < 65) :
    (c.toLower = ch) ↔ (c = ch) := by
  constructor
  · intro h
    unfold Char.toLower at h
    simp only at h
    by_cases hc : c.toNat ≥ 65 ∧ c.toNat ≤ 90
    · rw [if_pos hc] at h
      exfalso
      have hval : (Char.ofNat (c.toNat + 32)).toNat = ch.toNat := by rw [h]
      rw [charToNat_ofNat _ (by unfold Nat.isValidChar; left; omega)] at hval
      omega
    · rwa [if_neg hc] at h
  · intro h
    subst h
    unfold Char.toLower
    simp only
    rw [if_neg (by omega)]

/-- Lowercasing does not create or destroy a trailing `?`. -/
theorem endsWith_qmark_pyLower (t : String) :
    strEndsWith (pyLower t) "?" = strEndsWith t "?" := by
  unfold strEndsWith pyLower List.isSuffixOf
  simp only [String.toList]
  show (['?'].reverse.isPrefixOf (t.data.map Char.toLower).reverse)
      = (['?'].reverse.isPrefixOf t.data.reverse)
  rw [← List.map_reverse]
  cases t.data.reverse with
  | nil => rfl
  | cons c rest =>
    simp only [List.map_cons, List.isPrefixOf, List.reverse_singleton]
    by_cases hc : c = '?'
    · subst hc
      simp [List.isPrefixOf, show Char.toLower '?' = '?' from by decide]
    · have h2 : ¬ (Char.toLower c = '?') :=
        fun hcl => hc ((toLower_fix_low '?' c (by decide)).mp hcl)
      have h2' : ¬ ('?' = Char.toLower c) := fun h => h2 h.symm
      have hc' : ¬ ('?' = c) := fun h => hc h.symm
      simp [List.isPrefixOf, hc', h2']

/-- A strip-fixed string cannot end in `"?\n"`, lowered or not. -/
theorem no_trailing_nl (t : String) (hstrip : pyStrip t = t) :
    strEndsWith (pyLower t) "?\n" = false := by
  unfold strEndsWith pyLower List.isSuffixOf
  simp only [String.toList]
  rw [← List.map_reverse]
  have hl : ((t.data.dropWhile isPySpace).reverse.dropWhile isPySpace)
      = t.data.reverse := by
    have h1 := congrArg String.toList hstrip
    unfold pyStrip at h1
    simp only [String.toList] at h1
    have h2 := congrArg List.reverse h1
    simpa using h2
  cases hrev : t.data.reverse with
  | nil => simp [hrev]
  | cons c rest =>
    have hcws : ¬ isPySpace c := by
      rw [hrev] at hl
      have h3 := List.head?_dropWhile_not isPySpace
        ((t.data.dropWhile isPySpace).reverse)
      rw [hl] at h3
      simp at h3
      exact fun hws => by simp [h3] at hws
    show (['?', '\n'].reverse.isPrefixOf (List.map Char.toLower (c :: rest)))
        = false
    simp only [List.map_cons, List.reverse_cons, List.reverse_singleton]
    show (List.isPrefixOf ['\n', '?']
        (Char.toLower c :: List.map Char.toLower rest)) = false
    simp only [List.isPrefixOf]
    by_cases hcl : Char.toLower c = '\n'
    · exfalso
      have hcn : c = '\n' := (toLower_fix_low '\n' c (by decide)).mp hcl
      exact hcws (by simp [hcn, isPySpace])
    · have hcl' : ¬ ('\n' = Char.toLower c) := fun h => hcl h.symm
      simp [hcl']

theorem stripList_idem (p : Char → Bool) (l : List Char) :
    List.rdropWhile p (List.dropWhile p (List.rdropWhile p (List.dropWhile p l)))
      = List.rdropWhile p (List.dropWhile p l) := by
  have hb : List.dropWhile p (List.rdropWhile p (List.dropWhile p l))
      = List.rdropWhile p (List.dropWhile p l) := by
    rcases hcase : List.rdropWhile p (List.dropWhile p l) with _ | ⟨c, t⟩
    · simp
    · have hpre : List.rdropWhile p (List.dropWhile p l) <+: List.dropWhile p l :=
        List.rdropWhile_prefix p _
      rw [hcase] at hpre
      obtain ⟨t2, ht2⟩ := hpre
      have ha' : List.dropWhile p (List.dropWhile p l) = List.dropWhile p l :=
        List.dropWhile_idempotent p l
      have hpc : p c = false := by
        by_contra hpc
        rw [← ht2] at ha'
        simp only [List.cons_append, List.dropWhile_cons] at ha'
        rw [if_pos (by simpa using hpc)] at ha'
        have hlen := congrArg List.length ha'
        simp only [List.length_cons, List.length_append] at hlen
        have hle : (List.dropWhile p (t ++ t2)).length ≤ (t ++ t2).length :=
          List.Sublist.length_le (List.dropWhile_sublist p)
        simp only [List.length_append] at hle
        omega
      simp [List.dropWhile_cons, hpc]
  rw [hb, List.rdropWhile_idempotent]

theorem pyStrip_eq_rdrop (s : String) :
    pyStrip s
      = String.mk (List.rdropWhile isPySpace (List.dropWhile isPySpace s.toList)) :=
  rfl

/-- Python `strip()` is idempotent. -/
theorem pyStrip_idem (s : String) : pyStrip (pyStrip s) = pyStrip s := by
  rw [pyStrip_eq_rdrop, pyStrip_eq_rdrop]
  exact congrArg String.mk (stripList_idem isPySpace s.toList)

/-- For a stripped title, the code's FAQ classification is: ends with `?`,
or starts with a question word followed by whitespace, or starts with
`faq` (all case-insensitively). -/
theorem detailsIsFaq_stripped (t : String) (hstrip : pyStrip t = t) :
    detailsIsFaq t
      = (strEndsWith t "?" || qwordPrefix (pyLower t)
          || strStartsWith (pyLower t) "faq") := by
  unfold detailsIsFaq looksLikeFaqQuestion regexQDollar
  simp only []
  rw [hstrip, endsWith_qmark_pyLower, no_trailing_nl t hstrip]
  cases hE : strEndsWith t "?" <;> cases hQ : qwordPrefix (pyLower t) <;>
    cases hF : strStartsWith (pyLower t) "faq" <;> simp [hE, hQ, hF]

/-- C7 counterexample: three collected counter items with a single unique
value where only one label contains "rating".  The claim's exception
("all labels contain the word rating") does not apply, so the claim
mandates replacement by a table — but the code's exclusion uses `any`, so
the container is left unchanged (`counterDecision` yields `none`). -/
theorem claim_C7_counterexample :
    counterDecision
        [("5", "Star rating"), ("5", "Happy clients"), ("5", "Years active")]
      = none ∧
    3 ≤ ([("5", "Star rating"), ("5", "Happy clients"),
        ("5", "Years active")] : List (String × String)).length ∧
    allRatingLabels
        [("5", "Star rating"), ("5", "Happy clients"), ("5", "Years active")]
      = false :=
  ⟨rfl, by decide, rfl⟩

/-- C7 (amended): once at least 3 `(value, label)` items are collected
from a qualifying container, the container is replaced by a
`<table><tbody>` of `<tr><td>value</td><td>label</td></tr>` rows in
collection order — except when *some* label contains "rating" and the
items share a single unique value, in which case it is left unchanged. -/
theorem claim_C7_counter_rewrite (items : List (String × String))
    (h3 : 3 ≤ items.length) :
    counterDecision items
      = if anyRatingLabel items && singleUniqueValue items then none
        else some (counterTableNode items) := by
  unfold counterDecision
  rw [if_pos h3]

/-- Witness for `claim_C7_counter_rewrite` at the spec's counter
scenario. -/
theorem claim_C7_counter_rewrite_witness :
    3 ≤ ([("500+", "Clients"), ("10", "Years"), ("99%", "Uptime")]
        : List (String × String)).length ∧
    counterDecision [("500+", "Clients"), ("10", "Years"), ("99%", "Uptime")]
      = some (counterTableNode
          [("500+", "Clients"), ("10", "Years"), ("99%", "Uptime")]) :=
  ⟨by decide,
    (claim_C7_counter_rewrite
      [("500+", "Clients"), ("10", "Years"), ("99%", "Uptime")]
      (by decide)).trans rfl⟩

/-- C8 (amended): whenever `_extract_accordion_or_faq` emits a block for
a `<details>` element with a non-empty `<summary>`, the block is a `faq`
exactly when the title ends with `?`, or starts (case-insensitively) with
a question word followed by whitespace, or starts (case-insensitively)
with `faq`; otherwise it is an `accordion`. -/
theorem claim_C8_faq_classification (cfg : Config) (parents : List HNode)
    (childExtract : HNode → List Block) (n : HNode) :
    (∀ q a, extractAccordionOrFaq cfg parents childExtract n
        = some (Block.faq q a) →
      (strEndsWith q "?" || qwordPrefix (pyLower q)
        || strStartsWith (pyLower q) "faq") = true) ∧
    (∀ ti c, extractAccordionOrFaq cfg parents childExtract n
        = some (Block.accordion ti c) →
      (strEndsWith ti "?" || qwordPrefix (pyLower ti)
        || strStartsWith (pyLower ti) "faq") = false) := by
  constructor
  · intro q a hb
    unfold extractAccordionOrFaq at hb
    rcases hfind : findDescPath n (fun d => d.nameD = "summary") with _ | spath
    · rw [hfind] at hb; simp at hb
    rw [hfind] at hb
    dsimp only at hb
    rcases hnode : nodeAt? n spath with _ | snode
    · rw [hnode] at hb; simp at hb
    rw [hnode] at hb
    dsimp only at hb
    by_cases hempty :
      (pyStrip (getVisibleTextSimple cfg (ancestorsOf n spath ++ parents) snode)).isEmpty
    · simp [hempty] at hb
    simp only [hempty, Bool.false_eq_true, if_false] at hb
    by_cases hfaq :
      detailsIsFaq (pyStrip (getVisibleTextSimple cfg (ancestorsOf n spath ++ parents) snode))
    · simp only [hfaq, if_true, Option.some.injEq, Block.faq.injEq] at hb
      obtain ⟨hq, -⟩ := hb
      subst hq
      rw [← detailsIsFaq_stripped _ (pyStrip_idem _)]
      exact hfaq
    · simp [hfaq] at hb
  · intro ti c hb
    unfold extractAccordionOrFaq at hb
    rcases hfind : findDescPath n (fun d => d.nameD = "summary") with _ | spath
    · rw [hfind] at hb; simp at hb
    rw [hfind] at hb
    dsimp only at hb
    rcases hnode : nodeAt? n spath with _ | snode
    · rw [hnode] at hb; simp at hb
    rw [hnode] at hb
    dsimp only at hb
    by_cases hempty :
      (pyStrip (getVisibleTextSimple cfg (ancestorsOf n spath ++ parents) snode)).isEmpty
    · simp [hempty] at hb
    simp only [hempty, Bool.false_eq_true, if_false] at hb
    by_cases hfaq :
      detailsIsFaq (pyStrip (getVisibleTextSimple cfg (ancestorsOf n spath ++ parents) snode))
    · simp [hfaq] at hb
    · simp only [hfaq, Bool.false_eq_true, if_false, Option.some.injEq,
        Block.accordion.injEq] at hb
      obtain ⟨ht, -⟩ := hb
      subst ht
      rw [← detailsIsFaq_stripped _ (pyStrip_idem _)]
      simpa using hfaq

/-- Witness for `claim_C8_faq_classification` at the spec's FAQ scenario
`<details><summary>What is X?</summary><p>It is Y.</p></details>`. -/
theorem claim_C8_faq_classification_witness :
    extractAccordionOrFaq defaultConfig [] (fun _ => [])
        (HNode.elem "details" []
          [HNode.elem "summary" [] [HNode.text "What is X?"],
           HNode.elem "p" [] [HNode.text "It is Y."]])
      = some (Block.faq "What is X?" [Block.paragraph "It is Y." none]) ∧
    (strEndsWith "What is X?" "?" || qwordPrefix (pyLower "What is X?")
      || strStartsWith (pyLower "What is X?") "faq") = true :=
  ⟨rfl,
    (claim_C8_faq_classification defaultConfig [] (fun _ => [])
      (HNode.elem "details" []
        [HNode.elem "summary" [] [HNode.text "What is X?"],
         HNode.elem "p" [] [HNode.text "It is Y."]])).1
      "What is X?" [Block.paragraph "It is Y." none] rfl⟩

/-- C8 counterexample: a `<details>` whose summary is `FAQ` is emitted as
a `faq` block (the code's extra `^faq` pattern fires), although the title
neither ends with `?` nor starts with a question word, so the claim says
it should be an `accordion`. -/
theorem claim_C8_counterexample :
    extractAccordionOrFaq defaultConfig [] (fun _ => [])
        (HNode.elem "details" [] [HNode.elem "summary" [] [HNode.text "FAQ"]])
      = some (Block.faq "FAQ" [fallbackAnswer]) ∧
    claimFaqClassification "FAQ" = false :=
  ⟨rfl, rfl⟩

/-- C9: the dead helper `_extract_role_heading` does clamp `aria-level`
into 1..6 as the claim states (here `aria-level="9"` gives level 6), but
the one live consumer of `aria-level` — the card-grid detector's heading
level computation — returns the raw `int(aria-level)` with no clamping
(here level 9, outside 1..6). -/
theorem claim_C9_aria_level_unclamped :
    extractRoleHeading defaultConfig []
        (HNode.elem "span" [("role", "heading"), ("aria-level", "9")]
          [HNode.text "Section title"])
      = Except.ok (some (Block.heading 6 "Section title" none)) ∧
    cardHeadingLevel
        (HNode.elem "span" [("role", "heading"), ("aria-level", "9")]
          [HNode.text "Section title"])
      = Except.ok 9 :=
  ⟨rfl, rfl⟩

/-- C1: the card-grid heading-level computation raises `ValueError`
(modelled `Except.error`) on a non-numeric `aria-level`, so `extract`
does not terminate normally on a document whose card grid has
`role="heading" aria-level="x"` titles. -/
theorem claim_C1_card_grid_int_crash :
    cardHeadingLevel
        (HNode.elem "span" [("role", "heading"), ("aria-level", "x")]
          [HNode.text "Alpha One"])
      = Except.error () ∧
    pyInt? "x" = none :=
  ⟨rfl, rfl⟩

theorem length_pos_of_not_isEmpty {α : Type} (l : List α)
    (h : ¬ l.isEmpty = true) : 1 ≤ l.length := by
  cases l with
  | nil => simp at h
  | cons x xs => simp

/-- C4 counterexample: an ARIA tablist with a single titled tab.
`_extract_tabset` emits the tabset as soon as `tabs` is non-empty, so the
output contains a `tabset` block with exactly one tab, violating the
claimed `len(tabs) ≥ 2` invariant. -/
theorem claim_C4_counterexample :
    extractTabset defaultConfig
        (HNode.elem "main" []
          [HNode.elem "h1" [] [HNode.text "T"],
           HNode.elem "div" [("role", "tablist")]
             [HNode.elem "button" [("role", "tab")] [HNode.text "Only"]]])
        (fun _ => []) [1]
      = some (Block.tabset [TabEntry.mk "Only" []]) ∧
    ([TabEntry.mk "Only" []].length < 2) :=
  ⟨rfl, by decide⟩

/-- Every block `rebuildGo` emits comes from the grid list or from the
section blocks it rebuilds. -/
theorem rebuildGo_mem (grid : List Block) (firstH4 : Nat) (skips : List Nat) :
    ∀ (l : List Block) (idx : Nat) (ins : Bool) (x : Block),
      x ∈ rebuildGo grid firstH4 skips idx ins l → x ∈ grid ∨ x ∈ l := by
  intro l
  induction l with
  | nil =>
    intro idx ins x hx
    unfold rebuildGo at hx
    split at hx
    · exact absurd hx (List.not_mem_nil x)
    · exact Or.inl hx
  | cons sb rest ih =>
    intro idx ins x hx
    unfold rebuildGo at hx
    dsimp only at hx
    split at hx
    · rcases List.mem_append.mp hx with h1 | h2
      · left
        split at h1
        · exact h1
        · exact absurd h1 (List.not_mem_nil x)
      · rcases ih _ _ x h2 with hg | hr
        · exact Or.inl hg
        · exact Or.inr (List.mem_cons_of_mem _ hr)
    · rcases List.mem_append.mp hx with h1 | h2
      · left
        split at h1
        · exact h1
        · exact absurd h1 (List.not_mem_nil x)
      · rcases List.mem_cons.mp h2 with he | h3
        · right; rw [he]; exact List.mem_cons_self sb rest
        · rcases ih _ _ x h3 with hg | hr
          · exact Or.inl hg
          · exact Or.inr (List.mem_cons_of_mem _ hr)

/-- Every block in the output of `_section_scoped_grid_fallback` is an
input block or a grid-fallback list of ≥ 6 unique H4 titles. -/
theorem sectionGrid_mem :
    ∀ (n : Nat) (blocks : List Block), blocks.length ≤ n →
      ∀ (x : Block), x ∈ sectionScopedGridFallback blocks →
        x ∈ blocks ∨ ∃ items, x = Block.list false items ∧ 6 ≤ items.length := by
  intro n
  induction n with
  | zero =>
    intro blocks hlen x hx
    have hb : blocks = [] := List.length_eq_zero.mp (Nat.le_zero.mp hlen)
    subst hb
    rw [sectionScopedGridFallback] at hx
    exact absurd hx (List.not_mem_nil x)
  | succ n ih =>
    intro blocks hlen x hx
    cases blocks with
    | nil =>
      rw [sectionScopedGridFallback] at hx
      exact absurd hx (List.not_mem_nil x)
    | cons b rest =>
      have hrest : rest.length ≤ n := by
        simp only [List.length_cons] at hlen; omega
      rw [sectionScopedGridFallback] at hx
      dsimp only at hx
      split at hx
      · split at hx
        · rcases List.mem_append.mp hx with h1 | h2
          · rcases List.mem_cons.mp h1 with he | h3
            · left; rw [he]; exact List.mem_cons_self b rest
            · rcases rebuildGo_mem _ _ _ _ _ _ x h3 with hg | hs
              · right
                rcases List.mem_singleton.mp hg with rfl
                exact ⟨_, rfl, by assumption⟩
              · exact Or.inl (List.mem_cons_of_mem _
                  ((List.takeWhile_sublist _).subset hs))
          · rcases ih _ (by rw [List.length_drop]; omega) x h2 with hin | hlist
            · exact Or.inl (List.mem_cons_of_mem _ (List.drop_subset _ _ hin))
            · exact Or.inr hlist
        · rcases List.mem_cons.mp hx with he | h3
          · left; rw [he]; exact List.mem_cons_self b rest
          · rcases ih rest hrest x h3 with hin | hlist
            · exact Or.inl (List.mem_cons_of_mem _ hin)
            · exact Or.inr hlist
      · rcases List.mem_cons.mp hx with he | h3
        · left; rw [he]; exact List.mem_cons_self b rest
        · rcases ih rest hrest x h3 with hin | hlist
          · exact Or.inl (List.mem_cons_of_mem _ hin)
          · exact Or.inr hlist

/-- C4 (amended): every `list` block any live producer emits has ≥ 2
items — `_extract_list` requires ≥ 2, the card-grid title-list fallback
and the section-scoped grid fallback pass both require ≥ 6 (and
`_extract_icon_list`, the only other `list` builder, is dead code) — and
every tabset the pseudo-tabset extractor emits has ≥ 2 tabs; but the
ARIA-tablist extractor `_extract_tabset` only guarantees ≥ 1 tab (its
`if tabs:` gate accepts a single tab). -/
theorem claim_C4_list_tabset_arities :
    (∀ (cfg : Config) (parents : List HNode) (n : HNode) (b : Block),
      extractList cfg parents n = some b →
      ∃ o items, b = Block.list o items ∧ 2 ≤ items.length) ∧
    (∀ (cards : List HNode) (bs : List Block),
      cardGridTitleListFallback cards = some bs →
      ∃ items, bs = [Block.list false items] ∧ 6 ≤ items.length) ∧
    (∀ (blocks : List Block) (x : Block),
      x ∈ sectionScopedGridFallback blocks →
      x ∈ blocks ∨ ∃ items, x = Block.list false items ∧ 6 ≤ items.length) ∧
    (∀ (root : HNode) (pe : HPath → List Block)
        (al : List (String × String)) (consumed : List HPath) (b : Block)
        (c' : List HPath),
      extractPseudoTabset root pe al consumed = (some b, c') →
      ∃ tabs, b = Block.tabset tabs ∧ 2 ≤ tabs.length) ∧
    (∀ (cfg : Config) (root : HNode) (pe : HPath → List Block)
        (epath : HPath) (b : Block),
      extractTabset cfg root pe epath = some b →
      ∃ tabs, b = Block.tabset tabs ∧ 1 ≤ tabs.length) := by
  refine ⟨?_, ?_, ?_, ?_, ?_⟩
  · intro cfg parents n b hb
    unfold extractList at hb
    by_cases h : (listItems cfg parents n).length < 2
    · rw [if_pos h] at hb
      exact Option.noConfusion hb
    · rw [if_neg h] at hb
      exact ⟨_, _, (Option.some.inj hb).symm, by omega⟩
  · intro cards bs hbs
    unfold cardGridTitleListFallback at hbs
    by_cases h : 6 ≤ (uniqueTitlesGo [] cards).length
    · rw [if_pos h] at hbs
      exact ⟨_, (Option.some.inj hbs).symm, h⟩
    · rw [if_neg h] at hbs
      exact Option.noConfusion hbs
  · intro blocks x hx
    exact sectionGrid_mem blocks.length blocks (Nat.le_refl _) x hx
  · intro root pe al consumed b c' hb
    unfold extractPseudoTabset at hb
    by_cases h : (pseudoLoop root pe al consumed).1.length < 2
    · rw [if_pos h] at hb
      exact Option.noConfusion (congrArg Prod.fst hb)
    · rw [if_neg h] at hb
      have hfst := congrArg Prod.fst hb
      simp only at hfst
      exact ⟨_, (Option.some.inj hfst).symm, by omega⟩
  · intro cfg root pe epath b hb
    unfold extractTabset at hb
    split at hb
    · exact Option.noConfusion hb
    · dsimp only at hb
      repeat' split at hb
      all_goals
        first
          | exact Option.noConfusion hb
          | (refine ⟨_, (Option.some.inj hb).symm, ?_⟩;
             exact length_pos_of_not_isEmpty _ (by assumption))

/-- Witness for `claim_C4_list_tabset_arities` at a concrete 2-item
`<ul>` and a concrete 6-card title-list fallback. -/
theorem claim_C4_list_tabset_arities_witness :
    (∃ o items,
      Block.list false ["Alpha point", "Beta point"] = Block.list o items ∧
      2 ≤ items.length) ∧
    (∃ items,
      [Block.list false
          ["T one", "T two", "T three", "T four", "T five", "T six"]]
        = [Block.list false items] ∧ 6 ≤ items.length) :=
  ⟨(claim_C4_list_tabset_arities).1 defaultConfig []
    (HNode.elem "ul" []
      [HNode.elem "li" [] [HNode.text "Alpha point"],
       HNode.elem "li" [] [HNode.text "Beta point"]])
    (Block.list false ["Alpha point", "Beta point"]) rfl,
   (claim_C4_list_tabset_arities).2.1
    [HNode.elem "div" [] [HNode.elem "h3" [] [HNode.text "T one"]],
     HNode.elem "div" [] [HNode.elem "h3" [] [HNode.text "T two"]],
     HNode.elem "div" [] [HNode.elem "h3" [] [HNode.text "T three"]],
     HNode.elem "div" [] [HNode.elem "h3" [] [HNode.text "T four"]],
     HNode.elem "div" [] [HNode.elem "h3" [] [HNode.text "T five"]],
     HNode.elem "div" [] [HNode.elem "h3" [] [HNode.text "T six"]]]
    [Block.list false
      ["T one", "T two", "T three", "T four", "T five", "T six"]] rfl⟩

theorem pseudoLoop_consumed_mono (root : HNode) (pe : HPath → List Block)
    (al : List (String × String)) :
    ∀ (consumed : List HPath) (x : HPath), x ∈ consumed →
      x ∈ (pseudoLoop root pe al consumed).2 := by
  induction al with
  | nil => intro consumed x hx; simpa [pseudoLoop] using hx
  | cons hd rest ih =>
    intro consumed x hx
    rcases hd with ⟨t0, tid0⟩
    unfold pseudoLoop
    rcases hl : idLookup root tid0 with _ | pp
    · dsimp only
      exact ih consumed x hx
    · dsimp only
      exact ih _ x (List.mem_cons_of_mem _ hx)

/-- C5 (amended): panels consumed by the pseudo-tabset extractor are put
in `consumed_panel_nodes`, and the walker skips any node that is a
consumed panel or lies inside one; ARIA tab panels are *not* marked
consumed — at top level they are skipped only when they are DOM
descendants of a `role="tablist"` element. -/
theorem claim_C5_panel_consumption :
    (∀ (consumed : List HPath) (panel q : HPath), panel <+: q →
      walkerSkipsConsumed (markPanelConsumed consumed panel) q = true) ∧
    (∀ (root : HNode) (pe : HPath → List Block)
        (al : List (String × String)) (consumed : List HPath)
        (t tid : String) (ppath : HPath),
      (t, tid) ∈ al → idLookup root tid = some ppath →
      ppath ∈ (pseudoLoop root pe al consumed).2) := by
  constructor
  · intro consumed panel q hpre
    unfold walkerSkipsConsumed markPanelConsumed isInsideConsumedPanel
    by_cases heq : panel = q
    · subst heq
      simp
    · have hmem : panel ∈ ancestorPaths q := by
        obtain ⟨t, rfl⟩ := hpre
        have ht : t ≠ [] := by rintro rfl; simp at heq
        unfold ancestorPaths
        refine List.mem_map.mpr ⟨panel.length, ?_, List.take_left panel t⟩
        rw [List.mem_reverse, List.mem_range, List.length_append]
        have : 0 < t.length := List.length_pos.mpr ht
        omega
      simp only [Bool.or_eq_true, List.any_eq_true]
      exact Or.inr ⟨panel, hmem, by simp⟩
  · intro root pe al
    induction al with
    | nil => intro consumed t tid ppath hmem; simp at hmem
    | cons hd rest ih =>
      intro consumed t tid ppath hmem hlook
      rcases hd with ⟨t0, tid0⟩
      rcases List.mem_cons.mp hmem with heq | hrest
      · cases heq
        unfold pseudoLoop
        rw [hlook]
        dsimp only
        exact pseudoLoop_consumed_mono root pe rest _ ppath (by simp [markPanelConsumed])
      · unfold pseudoLoop
        rcases hl : idLookup root tid0 with _ | pp
        · dsimp only
          exact ih consumed t tid ppath hrest hlook
        · dsimp only
          exact ih _ t tid ppath hrest hlook

/-- Witness for `claim_C5_panel_consumption`: a freshly consumed panel
and a node strictly inside it are both skipped, and a panel resolved by a
pseudo-tabset anchor ends up consumed. -/
theorem claim_C5_panel_consumption_witness :
    walkerSkipsConsumed (markPanelConsumed [] [2]) [2, 0] = true ∧
    [2] ∈ (pseudoLoop ariaTabsetDoc (paraPanelWalk ariaTabsetDoc)
      [("Tab1", "p1"), ("Tab2", "p2")] []).2 :=
  ⟨(claim_C5_panel_consumption).1 [] [2] [2, 0] ⟨[0], rfl⟩,
    (claim_C5_panel_consumption).2 ariaTabsetDoc (paraPanelWalk ariaTabsetDoc)
      [("Tab1", "p1"), ("Tab2", "p2")] [] "Tab1" "p1" [2] (by simp) rfl⟩

/-- C5 counterexample: in `ariaTabsetDoc` the ARIA tabset is extracted
with both panels' content in its tabs, yet panel `p1` (path `[2]`, a
sibling of the tablist) has no `role="tablist"` ancestor and the consumed
set is untouched by the ARIA path (`_extract_tabset` never calls
`_mark_panel_consumed`), so the walker re-extracts its paragraph as a
top-level block. -/
theorem claim_C5_counterexample :
    extractTabset defaultConfig ariaTabsetDoc (paraPanelWalk ariaTabsetDoc) [1]
      = some (Block.tabset
          [TabEntry.mk "Tab1" [Block.paragraph "Alpha content here." none],
           TabEntry.mk "Tab2" [Block.paragraph "Beta content here." none]]) ∧
    isInTabset ariaTabsetDoc [2] = false ∧
    walkerSkipsConsumed [] [2] = false ∧
    extractParagraph defaultConfig (ancestorsOf ariaTabsetDoc [2, 0])
        (HNode.elem "p" [] [HNode.text "Alpha content here."])
      = some (Block.paragraph "Alpha content here." none) :=
  ⟨rfl, rfl, rfl, rfl⟩

/-- C2: extraction is a pure function of the parsed document and the
configuration.  Two runs of the `_extract_blocks` pipeline — each from a
fresh extractor state over the same input — produce the same document,
hence byte-identical output under any serialization function.  (The
source keeps no cross-run state: `consumed_panel_nodes` and the id index
are rebuilt per run, sets are only membership-tested, dicts are
insertion-ordered, and MD5 is a pure function, here the `hash`
parameter.) -/
theorem claim_C2_determinism (finder : HNode → Option HPath)
    (clone prune counters : HNode → HNode) (walk : HNode → List Block)
    (cfg : Config) (hash : String → String) (url : String) (soup : HNode)
    (serialize : (List Block × Validation) × HNode → String)
    (r1 r2 : (List Block × Validation) × HNode)
    (h1 : r1 = extractBlocksPipeline finder clone prune counters walk
      (postPipeline cfg hash url) soup)
    (h2 : r2 = extractBlocksPipeline finder clone prune counters walk
      (postPipeline cfg hash url) soup) :
    r1 = r2 ∧ serialize r1 = serialize r2 := by
  subst h1
  subst h2
  exact ⟨rfl, rfl⟩

/-- Witness for `claim_C2_determinism` at a concrete minimal document. -/
theorem claim_C2_determinism_witness :
    extractBlocksPipeline (fun _ => some []) id id id
        (fun _ => [Block.heading 1 "Hi" none])
        (postPipeline defaultConfig (fun s => s) "")
        (HNode.elem "main" [] [HNode.text "x"])
      = extractBlocksPipeline (fun _ => some []) id id id
        (fun _ => [Block.heading 1 "Hi" none])
        (postPipeline defaultConfig (fun s => s) "")
        (HNode.elem "main" [] [HNode.text "x"]) ∧
    (fun (r : (List Block × Validation) × HNode) => r.1.2.status)
        (extractBlocksPipeline (fun _ => some []) id id id
          (fun _ => [Block.heading 1 "Hi" none])
          (postPipeline defaultConfig (fun s => s) "")
          (HNode.elem "main" [] [HNode.text "x"]))
      = (fun (r : (List Block × Validation) × HNode) => r.1.2.status)
        (extractBlocksPipeline (fun _ => some []) id id id
          (fun _ => [Block.heading 1 "Hi" none])
          (postPipeline defaultConfig (fun s => s) "")
          (HNode.elem "main" [] [HNode.text "x"])) :=
  claim_C2_determinism (fun _ => some []) id id id
    (fun _ => [Block.heading 1 "Hi" none]) defaultConfig (fun s => s) ""
    (HNode.elem "main" [] [HNode.text "x"])
    (fun r => r.1.2.status) _ _ rfl rfl

/-- C10: the `_extract_blocks` skeleton serializes the selected main
content, re-parses that string and hands only the clone to the mutating
passes (pruning, counter rewriting), so the extractor's original soup
emerges unchanged — serializing it before and after the call yields the
same string — whatever the passes do. -/
theorem claim_C10_soup_unchanged (finder : HNode → Option HPath)
    (clone prune counters : HNode → HNode) (walk : HNode → List Block)
    (post : List Block → List Block × Validation) (soup : HNode) :
    (extractBlocksPipeline finder clone prune counters walk post soup).2
      = soup ∧
    serializeNode
        (extractBlocksPipeline finder clone prune counters walk post soup).2
      = serializeNode soup := by
  unfold extractBlocksPipeline
  split
  · exact ⟨rfl, rfl⟩
  · split
    · exact ⟨rfl, rfl⟩
    · exact ⟨rfl, rfl⟩

end HtmlSJ
